import Mathlib

/-!
Verification of the pdf-craft-sdk client library against its specification.

Part 1: the completion poller, embedded from
`pdf_craft_sdk/client.py`, `PDFCraftClient.wait_for_completion`.

The python loop is:

    start_time = time.time()
    timeout_sec = max_wait_ms / 1000.0
    current_interval_sec = check_interval_ms / 1000.0
    max_interval_sec = max_check_interval_ms / 1000.0
    while time.time() - start_time < timeout_sec:
        result = self.get_conversion_result(task_id, format_type)
        state = result.get("state")
        if state == "completed":
            data = result.get("data")
            if data and "downloadURL" in data:
                return data["downloadURL"]
            else:
                raise APIError(f"Task completed but downloadURL missing ...")
        elif state == "failed":
            raise APIError(f"Conversion failed: {result.get('error', 'Unknown error')}")
        time.sleep(current_interval_sec)
        current_interval_sec = min(current_interval_sec * factor, max_interval_sec)
    raise TimeoutError("Conversion timeout")

We model the status endpoint as a finite list of responses consumed in
order, the clock as wall-clock rational seconds advanced exactly by the
suspensions (queries are instantaneous), and the run as a trace of the
observable actions (status queries tagged with the time they are issued,
and suspensions tagged with their duration) together with the final
result.  Durations and times are rationals, a faithful model of the
python floats at the small decimal values the claims use.
-/

/-- A decoded JSON response of the status endpoint, as inspected by the
python code: the `state` field, the `data` field (a JSON object modelled
as an association list, `none` when absent; python truthiness makes an
empty object falsy), and the `error` field. -/
structure PollResponse where
  state : Option String
  data : Option (List (String × String))
  error : Option String
deriving DecidableEq

/-- The exceptions the poller can raise, one constructor per python
exception class used in `wait_for_completion` (`APIError` and
`TimeoutError` from `pdf_craft_sdk.exceptions`), carrying the message. -/
inductive SdkError where
  | apiError (msg : String)
  | timeoutError (msg : String)
deriving DecidableEq

/-- Outcome of a poller run: a returned download URL, a raised exception,
or (a model artifact) exhaustion of the finite response list while the
loop would still continue. -/
inductive PollResult where
  | ok (url : String)
  | raised (e : SdkError)
  | exhausted
deriving DecidableEq

/-- An observable action of the poller: a status query issued at elapsed
time `t` receiving response `r`, or a suspension (`time.sleep`) of `d`
seconds. -/
inductive PollAction where
  | query (t : ℚ) (r : PollResponse)
  | susp (d : ℚ)
deriving DecidableEq

/-- The trace of one poller run: final result plus the ordered list of
observable actions. -/
structure PollTrace where
  result : PollResult
  actions : List PollAction
deriving DecidableEq

/-- The `data and "downloadURL" in data` check followed by
`data["downloadURL"]`: returns the URL exactly when the `data` object is
present, truthy (non-empty), and has the key. -/
def completedURL (r : PollResponse) : Option String :=
  match r.data with
  | none => none
  | some d => if d = [] then none else d.lookup "downloadURL"

/-- The message of the `APIError` raised when a completed response lacks
its download URL (the python message also interpolates the response). -/
def missingURLMsg : String := "Task completed but downloadURL missing in response"

/-- The body of the polling loop of `wait_for_completion`, one recursive
step per response.  `timeoutSec` is `max_wait_ms / 1000`, `maxIv` is
`max_check_interval_ms / 1000`, `t` the elapsed time since `start_time`,
`iv` the value of `current_interval_sec`. -/
def pollLoop (factor maxIv timeoutSec : ℚ) : List PollResponse → ℚ → ℚ → PollTrace
  | [], t, _ =>
    if timeoutSec ≤ t then ⟨.raised (.timeoutError "Conversion timeout"), []⟩
    else ⟨.exhausted, []⟩
  | r :: rest, t, iv =>
    if timeoutSec ≤ t then ⟨.raised (.timeoutError "Conversion timeout"), []⟩
    else if r.state = some "completed" then
      match completedURL r with
      | some url => ⟨.ok url, [.query t r]⟩
      | none => ⟨.raised (.apiError missingURLMsg), [.query t r]⟩
    else if r.state = some "failed" then
      ⟨.raised (.apiError ("Conversion failed: " ++ r.error.getD "Unknown error")), [.query t r]⟩
    else
      let cont := pollLoop factor maxIv timeoutSec rest (t + iv) (min (iv * factor) maxIv)
      ⟨cont.result, .query t r :: .susp iv :: cont.actions⟩

/-- `wait_for_completion(task_id, format_type, max_wait_ms, check_interval_ms,
max_check_interval_ms, backoff_factor)`, with the backoff factor already
resolved to its numeric value (the python code resolves a
`PollingStrategy` enum to a float before the loop) and the status
endpoint abstracted as the list of responses it returns in order. -/
def wait_for_completion (max_wait_ms check_interval_ms max_check_interval_ms factor : ℚ)
    (rs : List PollResponse) : PollTrace :=
  pollLoop factor (max_check_interval_ms / 1000) (max_wait_ms / 1000) rs 0
    (check_interval_ms / 1000)

/-- The durations of the suspensions of a trace, in order. -/
def PollTrace.sleeps (tr : PollTrace) : List ℚ :=
  tr.actions.filterMap fun a =>
    match a with
    | .susp d => some d
    | .query _ _ => none

/-- The responses consumed by the status queries of a trace, in order. -/
def PollTrace.queries (tr : PollTrace) : List PollResponse :=
  tr.actions.filterMap fun a =>
    match a with
    | .query _ r => some r
    | .susp _ => none

/-- A response is terminal when the loop body returns or raises on it:
`state == "completed"` (either branch) or `state == "failed"`. -/
def isTerminalResp (r : PollResponse) : Bool :=
  decide (r.state = some "completed") || decide (r.state = some "failed")

/-- The well-formedness the spec asks of a poller trace: it never starts
with a suspension, every query of a non-terminal response is followed by
exactly one suspension, and nothing at all follows the query of a
terminal response. -/
def alternatesQS : List PollAction → Bool
  | [] => true
  | .susp _ :: _ => false
  | .query _ r :: rest =>
    if isTerminalResp r then rest.isEmpty
    else
      match rest with
      | .susp _ :: rest2 => alternatesQS rest2
      | _ => false

/-- Expected suspension sequence: the first suspension (when present)
equals the current interval, and each subsequent one equals
`min(previous * factor, maxIv)`. -/
def isBackoffChainFrom (factor maxIv : ℚ) : ℚ → List ℚ → Bool
  | _, [] => true
  | iv, d :: rest =>
    decide (d = iv) && isBackoffChainFrom factor maxIv (min (iv * factor) maxIv) rest

/-- Total duration of the first `n` suspensions the loop would perform
starting from interval `iv`. -/
def backoffSum (factor maxIv : ℚ) : ℚ → ℕ → ℚ
  | _, 0 => 0
  | iv, n + 1 => iv + backoffSum factor maxIv (min (iv * factor) maxIv) n

lemma sleeps_cons_query (res : PollResult) (t : ℚ) (r : PollResponse) (acts : List PollAction) :
    (PollTrace.mk res (.query t r :: acts)).sleeps = (PollTrace.mk res acts).sleeps := by
  simp [PollTrace.sleeps]

lemma sleeps_cons_susp (res : PollResult) (d : ℚ) (acts : List PollAction) :
    (PollTrace.mk res (.susp d :: acts)).sleeps = d :: (PollTrace.mk res acts).sleeps := by
  simp [PollTrace.sleeps]

lemma pollLoop_deadline (factor maxIv timeoutSec t iv : ℚ) (rs : List PollResponse)
    (h : timeoutSec ≤ t) :
    pollLoop factor maxIv timeoutSec rs t iv =
      ⟨.raised (.timeoutError "Conversion timeout"), []⟩ := by
  cases rs <;> simp [pollLoop, h]

lemma pollLoop_pending (factor maxIv timeoutSec t iv : ℚ) (r : PollResponse)
    (rest : List PollResponse) (h : ¬ timeoutSec ≤ t) (hc : ¬ r.state = some "completed")
    (hf : ¬ r.state = some "failed") :
    pollLoop factor maxIv timeoutSec (r :: rest) t iv =
      ⟨(pollLoop factor maxIv timeoutSec rest (t + iv) (min (iv * factor) maxIv)).result,
        .query t r :: .susp iv ::
          (pollLoop factor maxIv timeoutSec rest (t + iv) (min (iv * factor) maxIv)).actions⟩ := by
  simp [pollLoop, h, hc, hf]

/-- Every suspension sequence the loop produces follows the backoff
recurrence, whatever the responses and the deadline. -/
lemma pollLoop_chain (factor maxIv timeoutSec : ℚ) (rs : List PollResponse) :
    ∀ t iv, isBackoffChainFrom factor maxIv iv
      (pollLoop factor maxIv timeoutSec rs t iv).sleeps = true := by
  induction rs with
  | nil =>
    intro t iv
    by_cases h : timeoutSec ≤ t <;> simp [pollLoop, h, PollTrace.sleeps, isBackoffChainFrom]
  | cons r rest ih =>
    intro t iv
    by_cases h : timeoutSec ≤ t
    · simp [pollLoop_deadline _ _ _ _ _ _ h, PollTrace.sleeps, isBackoffChainFrom]
    · by_cases hc : r.state = some "completed"
      · cases hU : completedURL r <;>
          simp [pollLoop, h, hc, hU, PollTrace.sleeps, isBackoffChainFrom]
      · by_cases hf : r.state = some "failed"
        · simp [pollLoop, h, hc, hf, PollTrace.sleeps, isBackoffChainFrom]
        · rw [pollLoop_pending _ _ _ _ _ _ _ h hc hf, sleeps_cons_query, sleeps_cons_susp]
          have := ih (t + iv) (min (iv * factor) maxIv)
          simp [isBackoffChainFrom, this]

/-- Every trace the loop produces is well-formed in the sense of
`alternatesQS`. -/
lemma pollLoop_alternates (factor maxIv timeoutSec : ℚ) (rs : List PollResponse) :
    ∀ t iv, alternatesQS (pollLoop factor maxIv timeoutSec rs t iv).actions = true := by
  induction rs with
  | nil =>
    intro t iv
    by_cases h : timeoutSec ≤ t <;> simp [pollLoop, h, alternatesQS]
  | cons r rest ih =>
    intro t iv
    by_cases h : timeoutSec ≤ t
    · simp [pollLoop_deadline _ _ _ _ _ _ h, alternatesQS]
    · by_cases hc : r.state = some "completed"
      · cases hU : completedURL r <;>
          simp [pollLoop, h, hc, hU, alternatesQS, isTerminalResp]
      · by_cases hf : r.state = some "failed"
        · simp [pollLoop, h, hc, hf, alternatesQS, isTerminalResp]
        · rw [pollLoop_pending _ _ _ _ _ _ _ h hc hf]
          have := ih (t + iv) (min (iv * factor) maxIv)
          simp [alternatesQS, isTerminalResp, hc, hf, this]

/-- The number of suspensions equals the number of queries whose response
is non-terminal: exactly one suspension per non-terminal iteration. -/
lemma pollLoop_susp_count (factor maxIv timeoutSec : ℚ) (rs : List PollResponse) :
    ∀ t iv, (pollLoop factor maxIv timeoutSec rs t iv).sleeps.length =
      ((pollLoop factor maxIv timeoutSec rs t iv).queries.filter
        fun r => ! isTerminalResp r).length := by
  induction rs with
  | nil =>
    intro t iv
    by_cases h : timeoutSec ≤ t <;> simp [pollLoop, h, PollTrace.sleeps, PollTrace.queries]
  | cons r rest ih =>
    intro t iv
    by_cases h : timeoutSec ≤ t
    · simp [pollLoop_deadline _ _ _ _ _ _ h, PollTrace.sleeps, PollTrace.queries]
    · by_cases hc : r.state = some "completed"
      · cases hU : completedURL r <;>
          simp [pollLoop, h, hc, hU, PollTrace.sleeps, PollTrace.queries, isTerminalResp]
      · by_cases hf : r.state = some "failed"
        · simp [pollLoop, h, hc, hf, PollTrace.sleeps, PollTrace.queries, isTerminalResp]
        · rw [pollLoop_pending _ _ _ _ _ _ _ h hc hf]
          have := ih (t + iv) (min (iv * factor) maxIv)
          simp [PollTrace.sleeps, PollTrace.queries, isTerminalResp, hc, hf] at this ⊢
          exact this

/-- Every status query of a run is issued strictly before the deadline:
once `timeoutSec` has elapsed, no further query happens. -/
lemma pollLoop_queries_before_deadline (factor maxIv timeoutSec : ℚ) (rs : List PollResponse) :
    ∀ t iv tq r, PollAction.query tq r ∈ (pollLoop factor maxIv timeoutSec rs t iv).actions →
      tq < timeoutSec := by
  induction rs with
  | nil =>
    intro t iv tq r hmem
    by_cases h : timeoutSec ≤ t <;> simp [pollLoop, h] at hmem
  | cons r0 rest ih =>
    intro t iv tq r hmem
    by_cases h : timeoutSec ≤ t
    · rw [pollLoop_deadline _ _ _ _ _ _ h] at hmem
      simp at hmem
    · push_neg at h
      by_cases hc : r0.state = some "completed"
      · cases hU : completedURL r0 <;> simp [pollLoop, not_le.mpr h, hc, hU] at hmem <;>
          [skip; skip] <;> first
          | (obtain ⟨h1, _⟩ := hmem; exact h1 ▸ h)
      · by_cases hf : r0.state = some "failed"
        · simp [pollLoop, not_le.mpr h, hc, hf] at hmem
          obtain ⟨h1, _⟩ := hmem
          exact h1 ▸ h
        · rw [pollLoop_pending _ _ _ _ _ _ _ (not_le.mpr h) hc hf] at hmem
          simp at hmem
          rcases hmem with ⟨h1, _⟩ | h2
          · exact h1 ▸ h
          · exact ih _ _ _ _ h2

/-- When the deadline has not passed, the first action on a non-empty
response list is the status query of the head response. -/
lemma pollLoop_first_query (factor maxIv timeoutSec t iv : ℚ) (r : PollResponse)
    (rest : List PollResponse) (h : ¬ timeoutSec ≤ t) :
    ∃ l, (pollLoop factor maxIv timeoutSec (r :: rest) t iv).actions =
      .query t r :: l := by
  by_cases hc : r.state = some "completed"
  · cases hU : completedURL r with
    | none => exact ⟨[], by simp [pollLoop, h, hc, hU]⟩
    | some url => exact ⟨[], by simp [pollLoop, h, hc, hU]⟩
  · by_cases hf : r.state = some "failed"
    · exact ⟨[], by simp [pollLoop, h, hc, hf]⟩
    · exact ⟨_, by rw [pollLoop_pending _ _ _ _ _ _ _ h hc hf]⟩

/-- If the first `n` responses are all non-terminal and the first `n`
suspensions already use up the deadline, the run raises the timeout
error. -/
lemma pollLoop_timeout_of_pending (factor maxIv timeoutSec : ℚ) :
    ∀ (n : ℕ) (rs : List PollResponse) (t iv : ℚ),
      n ≤ rs.length →
      (∀ r ∈ rs.take n, isTerminalResp r = false) →
      timeoutSec ≤ t + backoffSum factor maxIv iv n →
      (pollLoop factor maxIv timeoutSec rs t iv).result =
        .raised (.timeoutError "Conversion timeout") := by
  intro n
  induction n with
  | zero =>
    intro rs t iv _ _ hT
    rw [backoffSum, add_zero] at hT
    rw [pollLoop_deadline _ _ _ _ _ _ hT]
  | succ n ih =>
    intro rs t iv hlen hpend hT
    by_cases h : timeoutSec ≤ t
    · rw [pollLoop_deadline _ _ _ _ _ _ h]
    · cases rs with
      | nil => simp at hlen
      | cons r rest =>
        have hr : isTerminalResp r = false := hpend r (by simp)
        have hc : ¬ r.state = some "completed" := by
          intro hx
          simp [isTerminalResp, hx] at hr
        have hf : ¬ r.state = some "failed" := by
          intro hx
          simp [isTerminalResp, hx] at hr
        rw [pollLoop_pending _ _ _ _ _ _ _ h hc hf]
        refine ih rest (t + iv) (min (iv * factor) maxIv) (by simpa using hlen) ?_ ?_
        · intro r2 hr2
          apply hpend
          rw [List.take_succ_cons]
          exact List.mem_cons_of_mem _ hr2
        · rw [backoffSum] at hT
          linarith [hT]

/-- A processing status response as the claims use it. -/
def processingResp : PollResponse := ⟨some "processing", none, none⟩

/-- A completed status response whose data payload carries a download URL. -/
def completedResp (url : String) : PollResponse :=
  ⟨some "completed", some [("downloadURL", url)], none⟩

/-- A failed status response with the given error field. -/
def failedResp (e : Option String) : PollResponse := ⟨some "failed", none, e⟩

/-- C1: in every run of `wait_for_completion` the sequence of suspensions
follows the backoff recurrence — the first suspension equals the initial
interval (`check_interval_ms / 1000` seconds) and every subsequent one
equals `min(previous * factor, max_check_interval_ms / 1000)`; in
particular with initial interval 1s, factor 2, max 5s and four processing
responses then a completed one the suspensions are `[1, 2, 4, 5]`, and
with initial interval 3s and factor 1 and two processing responses then a
completed one they are `[3, 3]`. -/
theorem C1_backoff_intervals :
    (∀ (max_wait_ms check_interval_ms max_check_interval_ms factor : ℚ)
        (rs : List PollResponse),
      isBackoffChainFrom factor (max_check_interval_ms / 1000) (check_interval_ms / 1000)
        (wait_for_completion max_wait_ms check_interval_ms max_check_interval_ms factor
          rs).sleeps = true) ∧
    (wait_for_completion 7200000 1000 5000 2
      [processingResp, processingResp, processingResp, processingResp,
        completedResp "u"]).sleeps = [1, 2, 4, 5] ∧
    (wait_for_completion 7200000 3000 5000 1
      [processingResp, processingResp, completedResp "u"]).sleeps = [3, 3] := by
  refine ⟨fun mw ci mc f rs => pollLoop_chain f (mc / 1000) (mw / 1000) rs 0 (ci / 1000),
    ?_, ?_⟩ <;>
    norm_num [wait_for_completion, pollLoop, PollTrace.sleeps, completedURL,
      processingResp, completedResp, min_def, List.filterMap]

/-- C2: whenever the cumulative suspensions of the first `n` polls (all of
which returned a non-terminal status) reach the deadline
`max_wait_ms / 1000`, the run raises the `TimeoutError` — a different
exception class from the `APIError` raised for a remote job failure — and
every status query of the run was issued strictly before the deadline,
the deadline being measured from the start of the call (elapsed time is
cumulative, never reset by a successful poll). -/
theorem C2_timeout_deadline (max_wait_ms check_interval_ms max_check_interval_ms factor : ℚ)
    (rs : List PollResponse) (n : ℕ)
    (hn : n ≤ rs.length)
    (hpend : ∀ r ∈ rs.take n, isTerminalResp r = false)
    (hT : max_wait_ms / 1000 ≤
      backoffSum factor (max_check_interval_ms / 1000) (check_interval_ms / 1000) n) :
    (wait_for_completion max_wait_ms check_interval_ms max_check_interval_ms factor
        rs).result = .raised (.timeoutError "Conversion timeout") ∧
    (∀ tq r, PollAction.query tq r ∈
        (wait_for_completion max_wait_ms check_interval_ms max_check_interval_ms factor
          rs).actions → tq < max_wait_ms / 1000) ∧
    (∀ m, SdkError.timeoutError "Conversion timeout" ≠ SdkError.apiError m) := by
  refine ⟨?_, ?_, by intro m h; cases h⟩
  · exact pollLoop_timeout_of_pending factor (max_check_interval_ms / 1000)
      (max_wait_ms / 1000) n rs 0 (check_interval_ms / 1000) hn hpend (by linarith [hT])
  · intro tq r hmem
    exact pollLoop_queries_before_deadline factor (max_check_interval_ms / 1000)
      (max_wait_ms / 1000) rs 0 (check_interval_ms / 1000) tq r hmem

theorem C2_timeout_deadline_witness :
    (wait_for_completion 3000 1000 5000 2
      [processingResp, processingResp, processingResp]).result =
      .raised (.timeoutError "Conversion timeout") :=
  (C2_timeout_deadline 3000 1000 5000 2 [processingResp, processingResp, processingResp] 2
    (by norm_num) (by decide) (by norm_num [backoffSum, min_def])).1

/-- C3: every `wait_for_completion` trace is well-formed — it never
begins with a suspension (the first action is a status query), the query
of a non-terminal response is followed by exactly one suspension, nothing
follows the query of a terminal (completed or failed) response, and the
number of suspensions equals the number of non-terminal queries. -/
theorem C3_trace_shape (max_wait_ms check_interval_ms max_check_interval_ms factor : ℚ)
    (rs : List PollResponse) :
    alternatesQS (wait_for_completion max_wait_ms check_interval_ms max_check_interval_ms
      factor rs).actions = true ∧
    (wait_for_completion max_wait_ms check_interval_ms max_check_interval_ms factor
        rs).sleeps.length =
      ((wait_for_completion max_wait_ms check_interval_ms max_check_interval_ms factor
        rs).queries.filter fun r => ! isTerminalResp r).length :=
  ⟨pollLoop_alternates factor (max_check_interval_ms / 1000) (max_wait_ms / 1000) rs 0
      (check_interval_ms / 1000),
    pollLoop_susp_count factor (max_check_interval_ms / 1000) (max_wait_ms / 1000) rs 0
      (check_interval_ms / 1000)⟩

/-- C4 counterexample: on a completed response whose data payload is
absent, the poller raises an exception of the plain `APIError` class —
the very class the claim says the failure is distinct from (there is no
separate `InvariantViolation` category in the code; transport errors use
the same `APIError` class). -/
theorem C4_counterexample :
    ¬ (∀ msg, (wait_for_completion 7200000 1000 5000 2
      [⟨some "completed", none, none⟩]).result ≠ .raised (.apiError msg)) := by
  intro hall
  apply hall missingURLMsg
  simp [wait_for_completion, pollLoop, completedURL]
  norm_num

/-- C4 amended: for a status response with state "completed",
`wait_for_completion` returns the download URL when the data payload
carries one, and otherwise raises an `APIError` (the same exception class
used for transport errors, with a message identifying the missing
`downloadURL` — not a distinct InvariantViolation category) without any
retry, further query or suspension. -/
theorem C4_completed_handling (max_wait_ms check_interval_ms max_check_interval_ms factor : ℚ)
    (r : PollResponse) (rest : List PollResponse)
    (hw : 0 < max_wait_ms) (hc : r.state = some "completed") :
    (∀ url, completedURL r = some url →
      wait_for_completion max_wait_ms check_interval_ms max_check_interval_ms factor
        (r :: rest) = ⟨.ok url, [.query 0 r]⟩) ∧
    (completedURL r = none →
      wait_for_completion max_wait_ms check_interval_ms max_check_interval_ms factor
        (r :: rest) = ⟨.raised (.apiError missingURLMsg), [.query 0 r]⟩) := by
  have hg : ¬ max_wait_ms / 1000 ≤ (0 : ℚ) := by
    rw [not_le]
    positivity
  constructor
  · intro url hU
    simp [wait_for_completion, pollLoop, hg, hc, hU]
  · intro hU
    simp [wait_for_completion, pollLoop, hg, hc, hU]

theorem C4_completed_handling_witness :
    wait_for_completion 7200000 1000 5000 2 [completedResp "u"] =
      ⟨.ok "u", [.query 0 (completedResp "u")]⟩ :=
  (C4_completed_handling 7200000 1000 5000 2 (completedResp "u") [] (by norm_num)
    (by decide)).1 "u" (by decide)

/-- C5: on a status response with state "failed" the poller raises
immediately — the trace is the single query, with no further suspension
or query — an `APIError` whose message carries the service-provided
reason, and the `APIError` class is distinct from the `TimeoutError`
class raised on deadline expiry. -/
theorem C5_failed_handling (max_wait_ms check_interval_ms max_check_interval_ms factor : ℚ)
    (r : PollResponse) (rest : List PollResponse) (reason : String)
    (hw : 0 < max_wait_ms) (hf : r.state = some "failed") (he : r.error = some reason) :
    wait_for_completion max_wait_ms check_interval_ms max_check_interval_ms factor
      (r :: rest) =
      ⟨.raised (.apiError ("Conversion failed: " ++ reason)), [.query 0 r]⟩ ∧
    (∀ m1 m2, SdkError.apiError m1 ≠ SdkError.timeoutError m2) := by
  have hg : ¬ max_wait_ms / 1000 ≤ (0 : ℚ) := by
    rw [not_le]
    positivity
  have hc : ¬ r.state = some "completed" := by
    rw [hf]
    simp
  refine ⟨by simp [wait_for_completion, pollLoop, hg, hc, hf, he], ?_⟩
  intro m1 m2 h
  cases h

theorem C5_failed_handling_witness :
    wait_for_completion 7200000 1000 5000 2 [failedResp (some "disk full")] =
      ⟨.raised (.apiError ("Conversion failed: " ++ "disk full")),
        [.query 0 (failedResp (some "disk full"))]⟩ :=
  (C5_failed_handling 7200000 1000 5000 2 (failedResp (some "disk full")) [] "disk full"
    (by norm_num) (by decide) (by decide)).1

/-- C9: a status response whose state is neither "completed" nor "failed"
(absent state field or an unrecognized value such as "queued") is treated
as pending: the poller suspends for the current interval and the run
continues exactly as the loop on the remaining responses, and if time
remains and another response follows, the next action after the
suspension is another status query. -/
theorem C9_pending_states (max_wait_ms check_interval_ms max_check_interval_ms factor : ℚ)
    (r : PollResponse) (rest : List PollResponse)
    (hw : 0 < max_wait_ms)
    (hc : r.state ≠ some "completed") (hf : r.state ≠ some "failed") :
    (wait_for_completion max_wait_ms check_interval_ms max_check_interval_ms factor
        (r :: rest)).actions =
      .query 0 r :: .susp (check_interval_ms / 1000) ::
        (pollLoop factor (max_check_interval_ms / 1000) (max_wait_ms / 1000) rest
          (check_interval_ms / 1000)
          (min (check_interval_ms / 1000 * factor) (max_check_interval_ms / 1000))).actions ∧
    (wait_for_completion max_wait_ms check_interval_ms max_check_interval_ms factor
        (r :: rest)).result =
      (pollLoop factor (max_check_interval_ms / 1000) (max_wait_ms / 1000) rest
        (check_interval_ms / 1000)
        (min (check_interval_ms / 1000 * factor) (max_check_interval_ms / 1000))).result ∧
    (∀ r2 rest2, rest = r2 :: rest2 → check_interval_ms / 1000 < max_wait_ms / 1000 →
      ∃ l, (wait_for_completion max_wait_ms check_interval_ms max_check_interval_ms factor
        (r :: rest)).actions =
          .query 0 r :: .susp (check_interval_ms / 1000) ::
            .query (check_interval_ms / 1000) r2 :: l) := by
  have hg : ¬ max_wait_ms / 1000 ≤ (0 : ℚ) := by
    rw [not_le]
    positivity
  have hmain := pollLoop_pending factor (max_check_interval_ms / 1000) (max_wait_ms / 1000) 0
    (check_interval_ms / 1000) r rest hg hc hf
  rw [zero_add] at hmain
  refine ⟨by rw [wait_for_completion, hmain], by rw [wait_for_completion, hmain], ?_⟩
  intro r2 rest2 hrest hlt
  subst hrest
  obtain ⟨l, hl⟩ := pollLoop_first_query factor (max_check_interval_ms / 1000)
    (max_wait_ms / 1000) (check_interval_ms / 1000)
    (min (check_interval_ms / 1000 * factor) (max_check_interval_ms / 1000)) r2 rest2
    (not_le.mpr hlt)
  refine ⟨l, ?_⟩
  rw [wait_for_completion, hmain]
  simp [hl]

theorem C9_pending_states_witness :
    ∃ l, (wait_for_completion 7200000 1000 5000 2
      [⟨some "queued", none, none⟩, completedResp "u"]).actions =
        .query 0 ⟨some "queued", none, none⟩ :: .susp 1 ::
          .query 1 (completedResp "u") :: l := by
  obtain ⟨l, hl⟩ := (C9_pending_states 7200000 1000 5000 2 ⟨some "queued", none, none⟩
    [completedResp "u"] (by norm_num) (by decide) (by decide)).2.2 (completedResp "u") []
    rfl (by norm_num)
  refine ⟨l, ?_⟩
  rw [hl]
  norm_num

/-- C10: calling `wait_for_completion` with `max_wait_ms ≤ 0` raises the
`TimeoutError` with no status query and no suspension at all (the loop
guard fails before the first query). -/
theorem C10_nonpositive_max_wait (max_wait_ms check_interval_ms max_check_interval_ms
    factor : ℚ) (rs : List PollResponse) (h : max_wait_ms ≤ 0) :
    wait_for_completion max_wait_ms check_interval_ms max_check_interval_ms factor rs =
      ⟨.raised (.timeoutError "Conversion timeout"), []⟩ := by
  apply pollLoop_deadline
  linarith

theorem C10_nonpositive_max_wait_witness :
    wait_for_completion 0 1000 5000 2 [processingResp, completedResp "u"] =
      ⟨.raised (.timeoutError "Conversion timeout"), []⟩ :=
  C10_nonpositive_max_wait 0 1000 5000 2 [processingResp, completedResp "u"] (by norm_num)

/-!
Part 2: the chunked uploader.  `upload_file` and `UploadProgress` are not
among the provided sources — only their tests (`test_upload_unit.py`) and
callers are — so this part is modelled from the spec (sections 3 and 4.2)
and checked against it.
-/

/-- Modelled from the spec: the `UploadProgress` snapshot type of the
missing upload module — immutable snapshot
`(uploadedBytes, totalBytes, currentPart, totalParts)`, field names as
used by `test_upload_unit.py`. -/
structure UploadProgress where
  uploaded_bytes : ℕ
  total_bytes : ℕ
  current_part : ℕ
  total_parts : ℕ
deriving DecidableEq

/-- Modelled from the spec: `percentage = 100 * uploadedBytes /
totalBytes`, clamped to [0,100], undefined (report 0) when
`totalBytes = 0`. -/
def UploadProgress.percentage (p : UploadProgress) : ℚ :=
  if p.total_bytes = 0 then 0
  else min 100 (max 0 (100 * (p.uploaded_bytes : ℚ) / (p.total_bytes : ℚ)))

/-- Modelled from the spec: the collaborators of one `upload_file` call —
the local filesystem (size of the file at a path, `none` when the path is
not an existing readable regular file), the server-declared part size
from session initialization, and the finalized cache locator. -/
structure UploadEnv where
  fileSize : String → Option ℕ
  partSize : ℕ
  locator : String

/-- Outcome of an `upload_file` call. -/
inductive UploadOutcome where
  | ok (locator : String)
  | fileNotFound
deriving DecidableEq

/-- Trace of one `upload_file` call: outcome, number of Transport
requests issued (one session init plus per part one URL fetch and one
transfer), and the progress snapshots passed to the callback. -/
structure UploadTrace where
  outcome : UploadOutcome
  networkCalls : ℕ
  snapshots : List UploadProgress
deriving DecidableEq

/-- Modelled from the spec: the strictly sequential per-part loop — for
each part index `i` the part length is the length of the byte range read,
`min s (n - (i-1)*s)`, `uploadedBytes` is incremented by it, and a fresh
snapshot is reported. -/
def uploadParts (s n P : ℕ) : ℕ → List ℕ → List UploadProgress
  | _, [] => []
  | uploaded, i :: rest =>
    ⟨uploaded + min s (n - (i - 1) * s), n, i, P⟩ ::
      uploadParts s n P (uploaded + min s (n - (i - 1) * s)) rest

/-- Modelled from the spec: `uploadFile(path, progressCallback)` — check
the precondition before any network activity (`FileNotFound` with zero
Transport calls otherwise), initialize a session (server-declared part
size, `totalParts = ceil(totalBytes / partSize)`), run the sequential
per-part loop numbered `1..totalParts`, finalize to the cache locator. -/
def upload_file (env : UploadEnv) (path : String) : UploadTrace :=
  match env.fileSize path with
  | none => ⟨.fileNotFound, 0, []⟩
  | some n =>
    let s := env.partSize
    let P := (n + s - 1) / s
    ⟨.ok env.locator, 1 + 2 * P, uploadParts s n P 0 (List.range' 1 P)⟩

/-- A list of naturals is strictly increasing. -/
def strictlyIncreasingB : List ℕ → Bool
  | [] => true
  | [_] => true
  | a :: b :: rest => decide (a < b) && strictlyIncreasingB (b :: rest)

/-- A list of naturals is monotonically non-decreasing. -/
def nondecreasingB : List ℕ → Bool
  | [] => true
  | [_] => true
  | a :: b :: rest => decide (a ≤ b) && nondecreasingB (b :: rest)

lemma ceil_le_mul (n s : ℕ) (hs : 0 < s) : n ≤ ((n + s - 1) / s) * s := by
  have h : n + s - 1 < ((n + s - 1) / s + 1) * s :=
    (Nat.div_lt_iff_lt_mul hs).1 (Nat.lt_succ_self _)
  rw [Nat.succ_mul] at h
  generalize hq : (n + s - 1) / s * s = q at h ⊢
  omega

lemma ceil_pred_mul_lt (n s : ℕ) (hs : 0 < s) (hn : 0 < n) :
    ((n + s - 1) / s - 1) * s < n := by
  have h : (n + s - 1) / s * s ≤ n + s - 1 := Nat.div_mul_le_self _ _
  have h2 : ((n + s - 1) / s - 1) * s = (n + s - 1) / s * s - s := by
    rw [Nat.sub_mul, one_mul]
  rw [h2]
  generalize hq : (n + s - 1) / s * s = q at h ⊢
  omega

lemma strictB_cons_cons (a b : ℕ) (l : List ℕ) :
    strictlyIncreasingB (a :: b :: l) =
      (decide (a < b) && strictlyIncreasingB (b :: l)) := rfl

lemma nondecB_cons_cons (a b : ℕ) (l : List ℕ) :
    nondecreasingB (a :: b :: l) =
      (decide (a ≤ b) && nondecreasingB (b :: l)) := rfl

/-- The per-part loop starting at part `i' + 1` with `i' * s` bytes
already uploaded produces exactly the snapshots with cumulative bytes
`min (j * s) n` for each part index `j`. -/
lemma uploadParts_eq_map (s n P : ℕ) (hP2 : (P - 1) * s < n) :
    ∀ (k i' : ℕ), i' + k = P →
      uploadParts s n P (i' * s) (List.range' (i' + 1) k) =
        (List.range' (i' + 1) k).map fun j =>
          UploadProgress.mk (min (j * s) n) n j P := by
  intro k
  induction k with
  | zero =>
    intro i' _
    simp [uploadParts]
  | succ k ih =>
    intro i' hik
    rw [List.range'_succ]
    have hq : i' * s < n := by
      calc i' * s ≤ (P - 1) * s := Nat.mul_le_mul_right s (by omega)
        _ < n := hP2
    have hone : i' + 1 - 1 = i' := by omega
    have hmul : (i' + 1) * s = i' * s + s := Nat.succ_mul i' s
    have hup : i' * s + min s (n - i' * s) = min ((i' + 1) * s) n := by
      rw [hmul]
      rcases le_or_lt s (n - i' * s) with hcase | hcase
      · rw [min_eq_left hcase, min_eq_left (by omega)]
      · rw [min_eq_right (le_of_lt hcase), min_eq_right (by omega)]
        omega
    simp only [uploadParts, List.map_cons, hone, hup]
    cases k with
    | zero => simp [uploadParts]
    | succ k2 =>
      have hmin : min ((i' + 1) * s) n = (i' + 1) * s := by
        apply min_eq_left
        apply le_of_lt
        calc (i' + 1) * s ≤ (P - 1) * s := Nat.mul_le_mul_right s (by omega)
          _ < n := hP2
      rw [hmin, ih (i' + 1) (by omega)]

/-- Closed form of the snapshot list of a successful upload of a
non-empty file. -/
lemma upload_snapshots (env : UploadEnv) (path : String) (n : ℕ)
    (hfile : env.fileSize path = some n) (hs : 0 < env.partSize) (hn : 0 < n) :
    (upload_file env path).snapshots =
      (List.range' 1 ((n + env.partSize - 1) / env.partSize)).map fun j =>
        UploadProgress.mk (min (j * env.partSize) n) n j
          ((n + env.partSize - 1) / env.partSize) := by
  have h := uploadParts_eq_map env.partSize n ((n + env.partSize - 1) / env.partSize)
    (ceil_pred_mul_lt n env.partSize hs hn) ((n + env.partSize - 1) / env.partSize) 0 (by omega)
  simp only [Nat.zero_mul, Nat.zero_add] at h
  simp only [upload_file, hfile]
  exact h

/-- A zero-byte file yields zero parts and no snapshots. -/
lemma upload_snapshots_zero (env : UploadEnv) (path : String)
    (hfile : env.fileSize path = some 0) (hs : 0 < env.partSize) :
    (upload_file env path).snapshots = [] := by
  have h0 : (env.partSize - 1) / env.partSize = 0 := Nat.div_eq_of_lt (by omega)
  simp [upload_file, hfile, h0, uploadParts]

lemma strictB_min_range (s n P : ℕ) (hs : 0 < s) (hP2 : (P - 1) * s < n) :
    ∀ (k i' : ℕ), i' + k ≤ P →
      strictlyIncreasingB ((List.range' (i' + 1) k).map fun j => min (j * s) n) = true := by
  intro k
  induction k with
  | zero =>
    intro i' _
    simp [strictlyIncreasingB]
  | succ k ih =>
    intro i' hik
    cases k with
    | zero => simp [List.range', strictlyIncreasingB]
    | succ k2 =>
      rw [List.range'_succ, List.range'_succ, List.map_cons, List.map_cons]
      have ihx := ih (i' + 1) (by omega)
      rw [List.range'_succ, List.map_cons] at ihx
      rw [strictB_cons_cons]
      simp only [Bool.and_eq_true, decide_eq_true_eq]
      refine ⟨?_, ihx⟩
      have h1 : (i' + 1) * s < n := by
        calc (i' + 1) * s ≤ (P - 1) * s := Nat.mul_le_mul_right s (by omega)
          _ < n := hP2
      have h2 : (i' + 1 + 1) * s = (i' + 1) * s + s := Nat.succ_mul _ _
      rw [min_eq_left (le_of_lt h1)]
      apply lt_min
      · rw [h2]
        omega
      · exact h1

lemma nondecreasingB_range' : ∀ (k i : ℕ), nondecreasingB (List.range' i k) = true := by
  intro k
  induction k with
  | zero =>
    intro i
    simp [nondecreasingB]
  | succ k ih =>
    intro i
    cases k with
    | zero => simp [List.range', nondecreasingB]
    | succ k2 =>
      rw [List.range'_succ, List.range'_succ]
      have ihx := ih (i + 1)
      rw [List.range'_succ] at ihx
      rw [nondecB_cons_cons]
      simp only [Bool.and_eq_true, decide_eq_true_eq]
      exact ⟨by omega, ihx⟩

/-- The final snapshot of a successful upload of a non-empty file reports
all `n` bytes uploaded at the last part. -/
lemma upload_last_snapshot (env : UploadEnv) (path : String) (n : ℕ)
    (hfile : env.fileSize path = some n) (hs : 0 < env.partSize) (hn : 0 < n) :
    (upload_file env path).snapshots.getLast? =
      some (UploadProgress.mk n n ((n + env.partSize - 1) / env.partSize)
        ((n + env.partSize - 1) / env.partSize)) := by
  have hPpos : 0 < (n + env.partSize - 1) / env.partSize := by
    have h1 : 1 ≤ (n + env.partSize - 1) / env.partSize := by
      rw [Nat.le_div_iff_mul_le hs]
      omega
    omega
  obtain ⟨Q, hQ⟩ : ∃ Q, (n + env.partSize - 1) / env.partSize = Q + 1 :=
    ⟨(n + env.partSize - 1) / env.partSize - 1, by omega⟩
  have hle : n ≤ ((n + env.partSize - 1) / env.partSize) * env.partSize :=
    ceil_le_mul n env.partSize hs
  rw [upload_snapshots env path n hfile hs hn, hQ]
  rw [List.range'_concat, List.map_append]
  simp only [List.map_cons, List.map_nil, List.getLast?_concat]
  have harg : 1 + 1 * Q = Q + 1 := by omega
  rw [harg]
  have hmin : min ((Q + 1) * env.partSize) n = n := by
    apply min_eq_right
    rw [hQ] at hle
    exact hle
  rw [hmin]

/-- C6: `upload_file` on a path that is not an existing readable regular
file fails with `FileNotFound` before any Transport call is made — zero
network requests are issued and no progress snapshot is reported. -/
theorem C6_file_not_found (env : UploadEnv) (path : String)
    (h : env.fileSize path = none) :
    (upload_file env path).outcome = .fileNotFound ∧
    (upload_file env path).networkCalls = 0 ∧
    (upload_file env path).snapshots = [] := by
  simp [upload_file, h]

theorem C6_file_not_found_witness :
    (upload_file ⟨fun _ => none, 1048576, "cache://none"⟩ "nonexistent_file.pdf").outcome =
        .fileNotFound ∧
    (upload_file ⟨fun _ => none, 1048576, "cache://none"⟩
      "nonexistent_file.pdf").networkCalls = 0 :=
  ⟨(C6_file_not_found ⟨fun _ => none, 1048576, "cache://none"⟩ "nonexistent_file.pdf" rfl).1,
    (C6_file_not_found ⟨fun _ => none, 1048576, "cache://none"⟩ "nonexistent_file.pdf" rfl).2.1⟩

/-- C7: on a successful `upload_file` run the sequence of
`uploaded_bytes` values observed by the progress callback is strictly
increasing, `current_part` is monotonically increasing, and for a
non-empty file the final snapshot reports `uploaded_bytes = totalBytes`
(a zero-byte file produces zero parts and no snapshots). -/
theorem C7_progress_monotone (env : UploadEnv) (path : String) (n : ℕ)
    (hfile : env.fileSize path = some n) (hs : 0 < env.partSize) :
    strictlyIncreasingB ((upload_file env path).snapshots.map
      fun p => p.uploaded_bytes) = true ∧
    nondecreasingB ((upload_file env path).snapshots.map
      fun p => p.current_part) = true ∧
    (0 < n → (upload_file env path).snapshots.getLast? =
      some (UploadProgress.mk n n ((n + env.partSize - 1) / env.partSize)
        ((n + env.partSize - 1) / env.partSize))) := by
  rcases Nat.eq_zero_or_pos n with hn | hn
  · subst hn
    rw [upload_snapshots_zero env path hfile hs]
    exact ⟨rfl, rfl, by omega⟩
  · have hkey := upload_snapshots env path n hfile hs hn
    refine ⟨?_, ?_, fun _ => upload_last_snapshot env path n hfile hs hn⟩
    · rw [hkey, List.map_map]
      have := strictB_min_range env.partSize n ((n + env.partSize - 1) / env.partSize) hs
        (ceil_pred_mul_lt n env.partSize hs hn) ((n + env.partSize - 1) / env.partSize) 0
        (by omega)
      simpa using this
    · rw [hkey, List.map_map]
      have hfun : ((fun p => p.current_part) ∘ fun j =>
          UploadProgress.mk (min (j * env.partSize) n) n j
            ((n + env.partSize - 1) / env.partSize)) = id := rfl
      rw [hfun, List.map_id]
      exact nondecreasingB_range' _ 1

theorem C7_progress_monotone_witness :
    (upload_file ⟨fun _ => some 10, 4, "cache://obj"⟩ "doc.pdf").snapshots.getLast? =
      some (UploadProgress.mk 10 10 3 3) := by
  have h := (C7_progress_monotone ⟨fun _ => some 10, 4, "cache://obj"⟩ "doc.pdf" 10 rfl
    (by norm_num)).2.2 (by norm_num)
  norm_num at h
  exact h

/-- C8 counterexample: the snapshot with `totalBytes = 0` (and
`uploadedBytes = 0`) is reported as 0%, yet its `uploadedBytes` equals
its `totalBytes`, so the claimed equivalence "percentage = 100 iff
uploadedBytes = totalBytes" fails on it. -/
theorem C8_counterexample :
    ¬ (((UploadProgress.mk 0 0 0 0).percentage = 100) ↔
      (UploadProgress.mk 0 0 0 0).uploaded_bytes = (UploadProgress.mk 0 0 0 0).total_bytes) := by
  intro h
  have h100 := h.mpr rfl
  norm_num [UploadProgress.percentage] at h100

/-- C8 amended: for every `UploadProgress` snapshot the reported
percentage lies in [0, 100]; when `totalBytes = 0` it is 0; and for
valid snapshots with `totalBytes > 0` and `uploadedBytes ≤ totalBytes`,
the percentage equals 100 exactly when `uploadedBytes = totalBytes` (the
equivalence cannot include the `totalBytes = 0` snapshot, where the
reported value is 0 by definition). -/
theorem C8_percentage_bounds (p : UploadProgress) :
    (0 ≤ p.percentage ∧ p.percentage ≤ 100) ∧
    (p.total_bytes = 0 → p.percentage = 0) ∧
    (0 < p.total_bytes → p.uploaded_bytes ≤ p.total_bytes →
      (p.percentage = 100 ↔ p.uploaded_bytes = p.total_bytes)) := by
  refine ⟨?_, ?_, ?_⟩
  · rw [UploadProgress.percentage]
    rcases eq_or_ne p.total_bytes 0 with h0 | h0
    · simp [h0]
    · simp only [h0, if_false]
      constructor
      · exact le_min (by norm_num) (le_max_left _ _)
      · exact min_le_left _ _
  · intro h0
    simp [UploadProgress.percentage, h0]
  · intro hpos hle
    have htQ : (0 : ℚ) < (p.total_bytes : ℚ) := by exact_mod_cast hpos
    have hx : (0 : ℚ) ≤ 100 * (p.uploaded_bytes : ℚ) / (p.total_bytes : ℚ) := by positivity
    have hb : 100 * (p.uploaded_bytes : ℚ) / (p.total_bytes : ℚ) ≤ 100 := by
      rw [div_le_iff₀ htQ]
      have : (p.uploaded_bytes : ℚ) ≤ (p.total_bytes : ℚ) := by exact_mod_cast hle
      nlinarith
    rw [UploadProgress.percentage, if_neg (by omega), max_eq_right hx, min_eq_right hb]
    rw [div_eq_iff (ne_of_gt htQ)]
    constructor
    · intro heq
      have : (p.uploaded_bytes : ℚ) = (p.total_bytes : ℚ) := by linarith
      exact_mod_cast this
    · intro heq
      rw [heq]

theorem C8_percentage_bounds_witness :
    ((UploadProgress.mk 10 10 1 1).percentage = 100 ↔ (10 : ℕ) = 10) ∧
    ((UploadProgress.mk 5000 10000 1 2).percentage = 100 ↔ (5000 : ℕ) = 10000) :=
  ⟨(C8_percentage_bounds (UploadProgress.mk 10 10 1 1)).2.2 (by norm_num) (by norm_num),
    (C8_percentage_bounds (UploadProgress.mk 5000 10000 1 2)).2.2 (by norm_num) (by norm_num)⟩
